import Mathlib

/-!
Shallow embedding of the BistApp pipeline (src/main.py).

The program fetches an HTML page, extracts a positional list of tables,
builds a sector dataframe (ticker, sector, market-cap string) from table 2
and a return dataframe (ticker, daily return / 100) from table 6, inner-joins
them on the ticker column "Hisse", parses the market-cap column from the
Turkish locale format, buckets the return with `pd.cut`, and builds a
treemap figure specification.

Numbers are modelled with `ℚ`; a pandas cell that may be NaN is an
`Option ℚ` with `none` standing for NaN.  Python strings are Lean `String`s
(a structure over `List Char`), and the single-character `str.replace`
calls of the source are modelled character-wise.
-/

set_option maxRecDepth 10000

namespace BistApp

/-- Model of Python `s.replace(c, '')` for a single-character pattern
(pandas `Series.str.replace` with a literal pattern): drop every
occurrence of the character. -/
def strRemove (c : Char) (s : String) : String :=
  ⟨s.data.filter (fun x => x ≠ c)⟩

/-- Model of Python `s.replace(c, d)` for single characters: substitute
every occurrence of `c` by `d`. -/
def strSubst (c d : Char) (s : String) : String :=
  ⟨s.data.map (fun x => if x = c then d else x)⟩

/-- Numeric value of a big-endian decimal digit string. -/
def digitsVal (cs : List Char) : Nat :=
  cs.foldl (fun a c => 10 * a + (c.toNat - 48)) 0

/-- Split a character list at every `'.'` (the decimal point of the
cleaned string), keeping empty parts, as Python's float grammar sees it. -/
def splitDot : List Char → List (List Char)
  | [] => [[]]
  | c :: rest =>
    let r := splitDot rest
    if c = '.' then [] :: r
    else
      match r with
      | h :: t => (c :: h) :: t
      | [] => [[c]]

/-- Value of an unsigned decimal literal split at its dots: `"12"`,
`"12.5"`, `"12."` and `".5"` are accepted (as by Python `float`),
anything else is rejected. -/
def floatParts : List (List Char) → Option ℚ
  | [w] =>
    if w ≠ [] ∧ w.all (fun c => c.isDigit) then some (digitsVal w) else none
  | [w, f] =>
    if (w ≠ [] ∨ f ≠ []) ∧ w.all (fun c => c.isDigit) ∧ f.all (fun c => c.isDigit) then
      some ((digitsVal w : ℚ) + (digitsVal f : ℚ) / ((10 ^ f.length : ℕ) : ℚ))
    else none
  | _ => none

/-- Model of Python `float(s)` / `pd.to_numeric` on the plain decimal
forms that occur in this pipeline: optional sign, digits, optional
fractional part.  (Exponent notation, inf/nan spellings and surrounding
whitespace never occur in the cleaned strings and are not modelled.) -/
def pyFloat (s : String) : Option ℚ :=
  match s.data with
  | [] => none
  | c :: rest =>
    if c = '-' then (floatParts (splitDot rest)).map (fun q => -q)
    else if c = '+' then floatParts (splitDot rest)
    else floatParts (splitDot (c :: rest))

/-- `main.py:53` — the cleaning applied to the market-cap column:
`.str.replace('.', '').str.replace(',', '.')`. -/
def cleanMC (s : String) : String :=
  strSubst ',' '.' (strRemove '.' s)

/-- The locale numeric parse applied to the market-cap column
(`main.py:53`): remove the thousands separators, turn the decimal comma
into a dot, parse as floating point. -/
def localeParse (s : String) : Option ℚ :=
  pyFloat (cleanMC s)

/-- `main.py:43` — the normalisation applied to a textual return cell:
`.str.replace('%', '').str.replace(',', '.')` followed by
`pd.to_numeric(..., errors='coerce')`; `none` is the coerced NaN. -/
def toNumericNorm (s : String) : Option ℚ :=
  pyFloat (strSubst ',' '.' (strRemove '%' s))

/-! ## Classifier (`pd.cut`, main.py:55-57) -/

/-- The six labels of `color_labels` (main.py:56).  In the spec's
vocabulary: red = deep_negative, indianred = mild_negative,
lightpink = near_zero_negative, lightgreen = near_zero_positive,
lime = mild_positive, green = strong_positive. -/
inductive ColorLabel where
  | red | indianred | lightpink | lightgreen | lime | green
  deriving DecidableEq, Repr

/-- `color_ranges = [-10, -5, -0.01, 0, 0.01, 5, 10]` (main.py:55). -/
def colorRanges : List ℚ :=
  [-10, -5, -(1 / 100), 0, 1 / 100, 5, 10]

/-- `color_labels` in bin order (main.py:56). -/
def colorLabels : List ColorLabel :=
  [.red, .indianred, .lightpink, .lightgreen, .lime, .green]

/-- Model of `pd.cut` with default `right=True` on one value: the i-th bin
is the half-open interval (edges[i], edges[i+1]] and gets the i-th label;
a value in no bin gets NaN (`none`). -/
def pdCutVal (x : ℚ) : List ℚ → List ColorLabel → Option ColorLabel
  | lo :: hi :: es, l :: ls =>
    if lo < x ∧ x ≤ hi then some l else pdCutVal x (hi :: es) ls
  | _, _ => none

/-- `df["Renk"] = pd.cut(df["Getiri (%)"], bins=color_ranges, labels=color_labels)`
applied to one cell; a NaN return (`none`) is categorised as NaN. -/
def classify (v : Option ℚ) : Option ColorLabel :=
  v.bind (fun q => pdCutVal q colorRanges colorLabels)

/-! ## Dataframes and the return builder's two paths (main.py:26-53) -/

/-- The Python exception kinds that can arise inside the `try` block of
`fetch_and_process_data`: `requests` HTTP errors from `raise_for_status`,
`IndexError` from `tables[2]` / `tables[6]`, `TypeError` from dividing a
textual Series by 100, `ValueError` from `.astype('float64')`. -/
inductive PyExc where
  | httpError | indexError | typeError | valueError
  deriving DecidableEq, Repr

/-- The `"Günlük Getiri (%)"` column of table 6: across snapshots of the
upstream page it is either already numeric (possibly with NaN cells) or
textual (percentage strings). -/
inductive RetCol where
  | numeric (vals : List (Option ℚ))
  | textual (vals : List String)
  deriving DecidableEq, Repr

/-- Which of the two branches of the `try ... except TypeError` in
main.py:36-49 produced the return column. -/
inductive PathTaken where
  | primary | fallback
  deriving DecidableEq, Repr

/-- Division of one pandas cell by 100; NaN stays NaN. -/
def divideBy100 (v : Option ℚ) : Option ℚ :=
  v.map (fun q => q / 100)

/-- Path 1 (main.py:37-40): `return_table["Günlük Getiri (%)"]/100` on the
raw column.  Dividing a textual Series by an integer raises `TypeError`. -/
def path1 : RetCol → Except PyExc (List (Option ℚ))
  | .numeric vs => .ok (vs.map divideBy100)
  | .textual _ => .error .typeError

/-- The whole two-path builder for the return cells (main.py:36-49):
try path 1; on its `TypeError` strip `%`, normalise the comma, coerce to
numeric (NaN on failure) and divide by 100. -/
def buildReturnCol (col : RetCol) : List (Option ℚ) × PathTaken :=
  match col with
  | .numeric vs => (vs.map divideBy100, .primary)
  | .textual vs => (vs.map (fun s => divideBy100 (toNumericNorm s)), .fallback)

/-- One table of the `pd.read_html` result, restricted to the columns this
pipeline reads: `"Kod"`, `"Sektör"`, `"Piyasa Değeri (mn $)"` (a locale
string) and `"Günlük Getiri (%)"`. -/
structure Table where
  kod : List String
  sektor : List String
  piyasa : List String
  getiriCol : RetCol
  deriving DecidableEq, Repr

/-- A row of `sector_df` (main.py:28-32): columns `"Hisse"`, `"Sektör"`,
`"Piyasa Değeri (mn $)"` (still the raw locale string). -/
structure SectorRow where
  kod : String
  sektor : String
  piyasa : String
  deriving DecidableEq, Repr

/-- A row of `return_df` (main.py:37/46): columns `"Hisse"` and
`"Getiri (%)"` (already divided by 100; `none` is NaN). -/
structure ReturnRow where
  kod : String
  getiri : Option ℚ
  deriving DecidableEq, Repr

/-- A row of the merged frame `pd.merge(sector_df, return_df, on="Hisse")`
before the market-cap column is parsed. -/
structure MergedRow where
  kod : String
  sektor : String
  piyasa : String
  getiri : Option ℚ
  deriving DecidableEq, Repr

/-- A merged row after `astype('float64')` on the market-cap column. -/
structure ParsedRow where
  kod : String
  sektor : String
  piyasa : ℚ
  getiri : Option ℚ
  deriving DecidableEq, Repr

/-- A merged row after the `"Renk"` column is added (`none` = the NaN
category `pd.cut` gives values outside every bin). -/
structure FinalRow where
  kod : String
  sektor : String
  piyasa : ℚ
  getiri : Option ℚ
  renk : Option ColorLabel
  deriving DecidableEq, Repr

/-- `sector_df` built from table 2 (main.py:28-32); dataframe columns are
aligned positionally. -/
def sectorDfOf (t : Table) : List SectorRow :=
  (t.kod.zip (t.sektor.zip t.piyasa)).map (fun p => ⟨p.1, p.2.1, p.2.2⟩)

/-- `return_df` built from table 6 by the two-path builder (main.py:36-49). -/
def returnDfOf (t : Table) : List ReturnRow :=
  (t.kod.zip (buildReturnCol t.getiriCol).1).map (fun p => ⟨p.1, p.2⟩)

/-- `pd.merge(sector_df, return_df, on="Hisse")` (main.py:52): inner join
on case-sensitive string equality of the ticker, left-row order preserved,
each left row paired with every matching right row. -/
def mergeDfs (s : List SectorRow) (r : List ReturnRow) : List MergedRow :=
  s.flatMap (fun a =>
    (r.filter (fun b => b.kod = a.kod)).map (fun b => ⟨a.kod, a.sektor, a.piyasa, b.getiri⟩))

/-- `df["Piyasa Değeri (mn $)"].str.replace('.','').str.replace(',','.').astype('float64')`
(main.py:53): `astype` raises `ValueError` as soon as any cell of the
column fails to parse. -/
def astypeMC : List MergedRow → Except PyExc (List ParsedRow)
  | [] => .ok []
  | r :: rs =>
    match localeParse r.piyasa with
    | none => .error .valueError
    | some q =>
      match astypeMC rs with
      | .error e => .error e
      | .ok ps => .ok (⟨r.kod, r.sektor, q, r.getiri⟩ :: ps)

/-- Adding the `"Renk"` column (main.py:57) to one row. -/
def addRenk (r : ParsedRow) : FinalRow :=
  ⟨r.kod, r.sektor, r.piyasa, r.getiri, classify r.getiri⟩

/-- The body of the `try` block of `fetch_and_process_data`
(main.py:26-59), given the extracted table list: `tables[2]` and
`tables[6]` raise `IndexError` when out of range, `astype` may raise
`ValueError`; otherwise the final dataframe is returned. -/
def pipelineBody (tables : List Table) : Except PyExc (List FinalRow) :=
  match tables.get? 2 with
  | none => .error .indexError
  | some sector_table =>
    match tables.get? 6 with
    | none => .error .indexError
    | some return_table =>
      match astypeMC (mergeDfs (sectorDfOf sector_table) (returnDfOf return_table)) with
      | .error e => .error e
      | .ok rows => .ok (rows.map addRenk)

/-- `fetch_and_process_data` (main.py:15-64): `response.raise_for_status()`
raises on a failed fetch, and the blanket `except Exception` handler logs
the error and returns `None` — every exception kind collapses to the same
`none` result. -/
def fetch_and_process_data (fetchOk : Bool) (tables : List Table) : Option (List FinalRow) :=
  if fetchOk then
    match pipelineBody tables with
    | .ok df => some df
    | .error _ => none
  else none

/-! ## Treemap specification (`create_treemap`, main.py:66-104) -/

/-- The `color_map` dict of main.py:70-78; `"(?)"` is the key plotly uses
for the NaN category of the `"Renk"` column. -/
def color_map (k : String) : Option String :=
  if k = "(?)" then some "#262931"
  else if k = "red" then some "red"
  else if k = "indianred" then some "indianred"
  else if k = "lightpink" then some "lightpink"
  else if k = "lightgreen" then some "lightgreen"
  else if k = "lime" then some "lime"
  else if k = "green" then some "green"
  else none

/-- The key under which a row's `"Renk"` cell is looked up in `color_map`:
the label's name, or `"(?)"` for the NaN category. -/
def renkKey : Option ColorLabel → String
  | none => "(?)"
  | some .red => "red"
  | some .indianred => "indianred"
  | some .lightpink => "lightpink"
  | some .lightgreen => "lightgreen"
  | some .lime => "lime"
  | some .green => "green"

/-- The figure specification assembled by `create_treemap`: the arguments
of the `px.treemap` call (main.py:80-87) plus the hover template
(main.py:89-96) and the leaf text template (main.py:97). -/
structure ChartSpec where
  pathConstant : String
  pathCols : List String
  valuesCol : String
  colorCol : String
  customDataCols : List String
  colorMapOf : String → Option String
  hoverTemplate : String
  textTemplate : String
  data : List FinalRow

/-- `create_treemap` (main.py:66-104): builds the figure specification
from the dataframe; the `try`/`except` returns `None` on an exception, and
the construction itself always succeeds. -/
def create_treemap (df : List FinalRow) : Option ChartSpec :=
  some
    { pathConstant := "Borsa İstanbul"
      pathCols := ["Sektör", "Hisse"]
      valuesCol := "Piyasa Değeri (mn $)"
      colorCol := "Renk"
      customDataCols := ["Getiri (%)", "Sektör"]
      colorMapOf := color_map
      hoverTemplate :=
        "Hisse: %{label}<br>Piyasa Değeri (mn $): %{value}<br>Getiri: %{customdata[0]}<br>Sektör: %{customdata[1]}"
      textTemplate := "<b>%{label}</b><br>%{customdata[0]} %"
      data := df }

/-- The leaves of the treemap hierarchy with their sizes: one leaf per
dataframe row, keyed by ticker, sized by the `values` column
(market cap). -/
def chartLeaves (c : ChartSpec) : List (String × ℚ) :=
  c.data.map (fun r => (r.kod, r.piyasa))

/-! ## Decimal rendering (used to state round-trip properties) -/

/-- Big-endian decimal digits of `n`, with enough fuel; `natToDigits`
instantiates the fuel so the recursion is structural and computable. -/
def natToDigitsAux : Nat → Nat → List Char
  | 0, _ => []
  | fuel + 1, n =>
    if n < 10 then [Nat.digitChar n]
    else natToDigitsAux fuel (n / 10) ++ [Nat.digitChar (n % 10)]

/-- The standard decimal digit string of a natural number. -/
def natToDigits (n : Nat) : List Char :=
  natToDigitsAux (n + 1) n

/-- The two-decimal percentage-string rendering of the value `z / 100`,
in the upstream page's format: comma as decimal separator, a trailing
percent sign (e.g. `renderPct 250 = "2,50%"`, `renderPct (-5) = "-0,05%"`). -/
def renderPct (z : Int) : String :=
  ⟨(if z < 0 then ['-'] else []) ++
    natToDigits (z.natAbs / 100) ++
    ',' :: Nat.digitChar (z.natAbs % 100 / 10) :: Nat.digitChar (z.natAbs % 10) :: ['%']⟩

/-- Fuel-driven scan behind `placeholders`; one fuel unit is spent per
consumed character, so `cs.length` fuel always suffices. -/
def placeholdersAux : Nat → List Char → List String
  | 0, _ => []
  | _, [] => []
  | fuel + 1, '%' :: '\x7b' :: rest =>
    (⟨rest.takeWhile (fun c => c ≠ '\x7d')⟩ : String) ::
      placeholdersAux fuel ((rest.dropWhile (fun c => c ≠ '\x7d')).drop 1)
  | fuel + 1, _ :: rest => placeholdersAux fuel rest

/-- All `%\x7b...\x7d` placeholder names occurring in a plotly template
string, in order. -/
def placeholders (cs : List Char) : List String :=
  placeholdersAux cs.length cs

/-- The dataframe column a template placeholder renders, given the figure
specification: `label` is the last path level (the ticker), `value` the
sizing column, `customdata[i]` the i-th custom-data column. -/
def placeholderColumn (c : ChartSpec) : String → Option String
  | "label" => c.pathCols.getLast?
  | "value" => some c.valuesCol
  | "customdata[0]" => c.customDataCols.get? 0
  | "customdata[1]" => c.customDataCols.get? 1
  | _ => none

/-! ## Ticker projections and concrete tables used in the theorems -/

/-- The ticker (`"Hisse"`) column of a sector frame. -/
def sectorTickers (s : List SectorRow) : List String :=
  s.map (fun r => r.kod)

/-- The ticker (`"Hisse"`) column of a return frame. -/
def returnTickers (r : List ReturnRow) : List String :=
  r.map (fun r => r.kod)

/-- A filler table for the positions the pipeline never reads. -/
def emptyTable : Table :=
  ⟨[], [], [], .numeric []⟩

/-- A well-formed seven-table extraction: a sector table at index 2 and a
numeric return table at index 6 (integer market caps so that every stage
is exactly computable). -/
def demoTables : List Table :=
  [emptyTable, emptyTable,
    ⟨["AAA", "BBB"], ["Tech", "Fin"], ["1", "2"], .numeric []⟩,
    emptyTable, emptyTable, emptyTable,
    ⟨["AAA", "BBB"], [], [], .numeric [some 1, some 2]⟩]

/-- A sector table whose first row's market-cap string is not numeric
(`"abc"`), while the second row is well-formed. -/
def c7SectorTable : Table :=
  ⟨["AAA", "BBB"], ["Tech", "Fin"], ["abc", "2"], .numeric []⟩

/-- A numeric return table matching both tickers of `c7SectorTable`. -/
def c7ReturnTable : Table :=
  ⟨["AAA", "BBB"], [], [], .numeric [some 1, some 2]⟩

/-- Like `demoTables` but the first sector row's market-cap string is not
numeric, so `astype('float64')` raises on the column. -/
def c7BadTables : List Table :=
  [emptyTable, emptyTable, c7SectorTable,
    emptyTable, emptyTable, emptyTable, c7ReturnTable]

/-- A seven-table extraction whose return table holds one textual cell
`s`; used to follow one uncoercible return value through the pipeline. -/
def c10Tables (s : String) : List Table :=
  [emptyTable, emptyTable,
    ⟨["AAA"], ["Tech"], ["1"], .numeric []⟩,
    emptyTable, emptyTable, emptyTable,
    ⟨["AAA"], [], [], .textual [s]⟩]

/-- A classified record with market cap zero. -/
def zeroCapRow : FinalRow :=
  ⟨"AAA", "Tech", 0, some (1 / 100), some ColorLabel.lightgreen⟩

/-- A classified record with a negative market cap. -/
def negCapRow : FinalRow :=
  ⟨"BBB", "Fin", -5, some (1 / 100), some ColorLabel.lightgreen⟩

/-- The spec's merger example: sector tickers A, B, C. -/
def exSectorRows : List SectorRow :=
  [⟨"A", "s1", "1"⟩, ⟨"B", "s1", "2"⟩, ⟨"C", "s2", "3"⟩]

/-- The spec's merger example: return tickers B, C, D. -/
def exReturnRows : List ReturnRow :=
  [⟨"B", some 1⟩, ⟨"C", some 2⟩, ⟨"D", some 3⟩]

/-! ## Character value lemmas (evaluation helpers) -/

theorem charVal0 : '0'.toNat = 48 := rfl
theorem charVal1 : '1'.toNat = 49 := rfl
theorem charVal2 : '2'.toNat = 50 := rfl
theorem charVal3 : '3'.toNat = 51 := rfl
theorem charVal4 : '4'.toNat = 52 := rfl
theorem charVal5 : '5'.toNat = 53 := rfl
theorem charVal6 : '6'.toNat = 54 := rfl
theorem charVal7 : '7'.toNat = 55 := rfl
theorem charVal8 : '8'.toNat = 56 := rfl
theorem charVal9 : '9'.toNat = 57 := rfl

/-! ## Decimal parsing lemmas -/

theorem digitsVal_append (ds : List Char) (c : Char) :
    digitsVal (ds ++ [c]) = 10 * digitsVal ds + (c.toNat - 48) := by
  simp [digitsVal, List.foldl_append]

theorem digitChar_toNat {d : Nat} (h : d < 10) : (Nat.digitChar d).toNat - 48 = d := by
  interval_cases d <;> rfl

theorem digitChar_isDigit {d : Nat} (h : d < 10) : (Nat.digitChar d).isDigit = true := by
  interval_cases d <;> rfl

theorem natToDigitsAux_spec :
    ∀ (fuel n : Nat), n < fuel →
      digitsVal (natToDigitsAux fuel n) = n
    ∧ (∀ c ∈ natToDigitsAux fuel n, c.isDigit = true)
    ∧ natToDigitsAux fuel n ≠ []
  | 0, n, h => absurd h (Nat.not_lt_zero n)
  | fuel + 1, n, h => by
    by_cases h10 : n < 10
    · refine ⟨?_, ?_, ?_⟩ <;> simp [natToDigitsAux, h10, digitsVal]
      · exact digitChar_toNat h10
      · exact digitChar_isDigit h10
    · have hstep : n / 10 < n := Nat.div_lt_self (by omega) (by omega)
      have hrec : n / 10 < fuel := by omega
      obtain ⟨ih1, ih2, ih3⟩ := natToDigitsAux_spec fuel (n / 10) hrec
      refine ⟨?_, ?_, ?_⟩
      · rw [natToDigitsAux, if_neg h10, digitsVal_append, ih1,
          digitChar_toNat (Nat.mod_lt n (by omega))]
        omega
      · intro c hc
        rw [natToDigitsAux, if_neg h10] at hc
        rcases List.mem_append.mp hc with hc | hc
        · exact ih2 c hc
        · rcases List.mem_singleton.mp hc with rfl
          exact digitChar_isDigit (Nat.mod_lt n (by omega))
      · rw [natToDigitsAux, if_neg h10]
        simp

theorem digitsVal_natToDigits (n : Nat) : digitsVal (natToDigits n) = n :=
  (natToDigitsAux_spec (n + 1) n (Nat.lt_succ_self n)).1

theorem natToDigits_all_digit (n : Nat) : ∀ c ∈ natToDigits n, c.isDigit = true :=
  (natToDigitsAux_spec (n + 1) n (Nat.lt_succ_self n)).2.1

theorem natToDigits_ne_nil (n : Nat) : natToDigits n ≠ [] :=
  (natToDigitsAux_spec (n + 1) n (Nat.lt_succ_self n)).2.2

/-- A decimal digit is none of the separator characters. -/
theorem isDigit_ne {c : Char} (h : c.isDigit = true) {d : Char} (hd : d.isDigit = false) :
    c ≠ d := by
  intro he
  rw [he, hd] at h
  exact Bool.noConfusion h

theorem not_mem_of_all_digit {l : List Char} (h : ∀ c ∈ l, c.isDigit = true)
    {d : Char} (hd : d.isDigit = false) : d ∉ l := by
  intro hm
  have := h d hm
  rw [hd] at this
  exact Bool.noConfusion this

theorem filter_ne_of_all_digit {l : List Char} (h : ∀ c ∈ l, c.isDigit = true)
    {d : Char} (hd : d.isDigit = false) : l.filter (fun x => x ≠ d) = l := by
  refine List.filter_eq_self.mpr (fun a ha => ?_)
  simpa using isDigit_ne (h a ha) hd

theorem map_subst_of_all_digit {l : List Char} (h : ∀ c ∈ l, c.isDigit = true)
    {c d : Char} (hc : c.isDigit = false) :
    l.map (fun x => if x = c then d else x) = l := by
  induction l with
  | nil => rfl
  | cons a t ih =>
    have ha : a ≠ c := isDigit_ne (h a (List.mem_cons_self a t)) hc
    simp only [List.map_cons, if_neg ha,
      ih (fun x hx => h x (List.mem_cons_of_mem a hx))]

theorem splitDot_no_dot : ∀ {l : List Char}, '.' ∉ l → splitDot l = [l]
  | [], _ => rfl
  | c :: t, h => by
    have hc : ¬c = '.' := fun he => h (he ▸ List.mem_cons_self c t)
    have ht := splitDot_no_dot (fun hm => h (List.mem_cons_of_mem c hm))
    simp [splitDot, hc, ht]

theorem splitDot_append (a b : List Char) (ha : '.' ∉ a) :
    splitDot (a ++ '.' :: b) = a :: splitDot b := by
  induction a with
  | nil => simp [splitDot]
  | cons c t ih =>
    have hc : ¬c = '.' := fun he => ha (he ▸ List.mem_cons_self c t)
    have ht := ih (fun hm => ha (List.mem_cons_of_mem c hm))
    simp [splitDot, hc, ht]

/-- Evaluation of the unsigned decimal grammar on `⟨digits⟩.⟨digits⟩`. -/
theorem floatParts_split (w f : List Char) (hw : ∀ c ∈ w, c.isDigit = true)
    (hw0 : w ≠ []) (hf : ∀ c ∈ f, c.isDigit = true) :
    floatParts (splitDot (w ++ '.' :: f)) =
      some ((digitsVal w : ℚ) + (digitsVal f : ℚ) / ((10 ^ f.length : ℕ) : ℚ)) := by
  have hsplit : splitDot (w ++ '.' :: f) = w :: splitDot f :=
    splitDot_append _ _ (not_mem_of_all_digit hw (by rfl))
  have hsf : splitDot f = [f] := splitDot_no_dot (not_mem_of_all_digit hf (by rfl))
  rw [hsplit, hsf, floatParts,
    if_pos ⟨Or.inl hw0, List.all_eq_true.mpr (by simpa using hw),
      List.all_eq_true.mpr (by simpa using hf)⟩]

/-- Evaluation of `pyFloat` on an unsigned decimal string
`⟨digits⟩.⟨digits⟩`. -/
theorem pyFloat_decimal (w f : List Char) (hw : ∀ c ∈ w, c.isDigit = true)
    (hw0 : w ≠ []) (hf : ∀ c ∈ f, c.isDigit = true) :
    pyFloat ⟨w ++ '.' :: f⟩ =
      some ((digitsVal w : ℚ) + (digitsVal f : ℚ) / ((10 ^ f.length : ℕ) : ℚ)) := by
  obtain ⟨c, t, rfl⟩ : ∃ c t, w = c :: t := by
    cases w with
    | nil => exact absurd rfl hw0
    | cons c t => exact ⟨c, t, rfl⟩
  have hcd : c.isDigit = true := hw c (List.mem_cons_self c t)
  show pyFloat ⟨c :: (t ++ '.' :: f)⟩ = _
  rw [pyFloat]
  simp only []
  rw [if_neg (isDigit_ne hcd (by rfl)), if_neg (isDigit_ne hcd (by rfl))]
  exact floatParts_split (c :: t) f hw hw0 hf

/-- Removing every `c` from `intercalate [c] gs` gives the same result as
removing every `c` from the flattened groups. -/
theorem filter_intercalate (c : Char) :
    ∀ gs : List (List Char),
      (List.intercalate [c] gs).filter (fun x => x ≠ c) =
        gs.flatten.filter (fun x => x ≠ c)
  | [] => by simp [List.intercalate]
  | [g] => by simp [List.intercalate]
  | g :: h :: t => by
    have ih := filter_intercalate c (h :: t)
    simp only [List.intercalate] at ih ⊢
    rw [List.intersperse_cons_cons]
    simp only [List.flatten_cons, List.filter_append, ih]
    simp

/-! ## C1 — classifier boundaries -/

/-- C1, counterexample: the claim says `classify(-5.0)` is mild_negative
(`indianred`); `pd.cut` with inclusive right edges puts -5.0 in the bin
(-10, -5] whose label is `red` (deep_negative), so the claim's example is
false on the code (and contradicts the claim's own right-edge rule). -/
theorem c1_counterexample : classify (some (-5)) ≠ some ColorLabel.indianred := by
  decide

/-- C1 (amended): boundary exactness of the classifier over the fixed
half-open bins with inclusive right edge: `classify(-5.0)` is
deep_negative (`red`), `classify(0.0)` is near_zero_negative
(`lightpink`), `classify(0.01)` is near_zero_positive (`lightgreen`),
`classify(15.0)` is unclassified, and every value lying exactly on a bin
boundary belongs to the bin whose right edge equals it (all six right
edges listed). -/
theorem c1_boundary_exactness :
    classify (some (-5)) = some ColorLabel.red
  ∧ classify (some 0) = some ColorLabel.lightpink
  ∧ classify (some (1 / 100)) = some ColorLabel.lightgreen
  ∧ classify (some 15) = none
  ∧ classify (some (-(1 / 100))) = some ColorLabel.indianred
  ∧ classify (some 5) = some ColorLabel.lime
  ∧ classify (some 10) = some ColorLabel.green := by
  refine ⟨?_, ?_, ?_, ?_, ?_, ?_, ?_⟩ <;>
    norm_num [classify, pdCutVal, colorRanges, colorLabels]

/-! ## C3 — locale numeric parse of the market-cap column -/

/-- C3 (confirmed): the market-cap parse removes every thousands
separator `'.'`, replaces the decimal `','` by `'.'` and parses as
floating point: for any grouping of the decimal digits of `n` by dots and
any fractional digit string, the parse returns exactly
`n + frac / 10 ^ |frac|`; in particular `parse "1.234,56" = 1234.56` and
`parse "0,01" = 0.01`. -/
theorem c3_locale_numeric_parse (n : Nat) (groups : List (List Char)) (frac : List Char)
    (hg : groups.flatten = natToDigits n)
    (hf : ∀ c ∈ frac, c.isDigit = true) :
    localeParse ⟨List.intercalate ['.'] groups ++ ',' :: frac⟩ =
      some ((n : ℚ) + (digitsVal frac : ℚ) / ((10 ^ frac.length : ℕ) : ℚ))
  ∧ localeParse "1.234,56" = some (1234 + 56 / 100)
  ∧ localeParse "0,01" = some (1 / 100) := by
  refine ⟨?_, ?_, ?_⟩
  · have hjd : ∀ c ∈ groups.flatten, c.isDigit = true := by
      rw [hg]; exact natToDigits_all_digit n
    have hremove :
        (List.intercalate ['.'] groups ++ ',' :: frac).filter (fun x => x ≠ '.') =
          groups.flatten ++ ',' :: frac := by
      rw [List.filter_append, filter_intercalate, filter_ne_of_all_digit hjd (by rfl)]
      have hcomma : (',' :: frac).filter (fun x => x ≠ '.') = ',' :: frac := by
        refine List.filter_eq_self.mpr (fun a ha => ?_)
        rcases List.mem_cons.mp ha with rfl | ha
        · simp
        · simpa using isDigit_ne (hf a ha) (by rfl)
      rw [hcomma]
    have hsubst :
        (groups.flatten ++ ',' :: frac).map (fun x => if x = ',' then '.' else x) =
          groups.flatten ++ '.' :: frac := by
      rw [List.map_append, map_subst_of_all_digit hjd (by rfl), List.map_cons,
        if_pos rfl, map_subst_of_all_digit hf (by rfl)]
    show pyFloat (strSubst ',' '.' (strRemove '.' _)) = _
    rw [strRemove, strSubst]
    simp only [hremove, hsubst]
    rw [pyFloat_decimal _ _ hjd (hg ▸ natToDigits_ne_nil n) hf, hg, digitsVal_natToDigits]
  · norm_num +decide [localeParse, cleanMC, strRemove, strSubst, pyFloat, splitDot,
      floatParts, digitsVal, charVal1, charVal2, charVal3, charVal4, charVal5, charVal6]
  · norm_num +decide [localeParse, cleanMC, strRemove, strSubst, pyFloat, splitDot,
      floatParts, digitsVal, charVal0, charVal1]

/-- C3, witness: the grouping `1.234` with fractional digits `56`. -/
theorem c3_locale_numeric_parse_witness :
    (([['1'], ['2', '3', '4']] : List (List Char)).flatten = natToDigits 1234
      ∧ (∀ c ∈ (['5', '6'] : List Char), c.isDigit = true))
  ∧ (localeParse ⟨List.intercalate ['.'] [['1'], ['2', '3', '4']] ++ ',' :: ['5', '6']⟩ =
        some ((1234 : ℚ) + (digitsVal ['5', '6'] : ℚ) /
          ((10 ^ (['5', '6'] : List Char).length : ℕ) : ℚ))
    ∧ localeParse "1.234,56" = some (1234 + 56 / 100)
    ∧ localeParse "0,01" = some (1 / 100)) :=
  ⟨⟨by decide, by decide⟩,
    c3_locale_numeric_parse 1234 [['1'], ['2', '3', '4']] ['5', '6'] (by decide) (by decide)⟩

/-! ## C2 — the return builder's two paths -/

/-- The fallback normalisation recovers exactly the value `z / 100` from
its two-decimal percentage-string rendering. -/
theorem toNumericNorm_renderPct (z : Int) :
    toNumericNorm (renderPct z) = some ((z : ℚ) / 100) := by
  have hmod : z.natAbs % 100 < 100 := Nat.mod_lt _ (by omega)
  have h1 : z.natAbs % 100 / 10 < 10 := by omega
  have h2 : z.natAbs % 10 < 10 := Nat.mod_lt _ (by omega)
  have hd1 := digitChar_isDigit h1
  have hd2 := digitChar_isDigit h2
  have hds := natToDigits_all_digit (z.natAbs / 100)
  have hne := natToDigits_ne_nil (z.natAbs / 100)
  have hpct : ('%').isDigit = false := rfl
  have hcm : (',').isDigit = false := rfl
  set d1 := Nat.digitChar (z.natAbs % 100 / 10) with hd1def
  set d2 := Nat.digitChar (z.natAbs % 10) with hd2def
  set ds := natToDigits (z.natAbs / 100) with hdsdef
  set pre := (if z < 0 then ['-'] else ([] : List Char)) with hpre
  -- step 1: strip the percent sign
  have e1 : pre.filter (fun x => x ≠ '%') = pre := by
    rw [hpre]; split_ifs <;> simp +decide
  have e2 : ds.filter (fun x => x ≠ '%') = ds := filter_ne_of_all_digit hds hpct
  have e3 : ([',', d1, d2, '%'] : List Char).filter (fun x => x ≠ '%') = [',', d1, d2] := by
    simp +decide [List.filter, isDigit_ne hd1 hpct, isDigit_ne hd2 hpct]
  have hrm : (renderPct z).data.filter (fun x => x ≠ '%') = pre ++ ds ++ [',', d1, d2] := by
    show (pre ++ ds ++ [',', d1, d2, '%']).filter (fun x => x ≠ '%') = _
    rw [List.filter_append, List.filter_append, e1, e2, e3]
  -- step 2: normalise the decimal comma
  have e4 : pre.map (fun x => if x = ',' then '.' else x) = pre := by
    rw [hpre]; split_ifs <;> simp +decide
  have e5 : ds.map (fun x => if x = ',' then '.' else x) = ds :=
    map_subst_of_all_digit hds hcm
  have e6 : ([',', d1, d2] : List Char).map (fun x => if x = ',' then '.' else x) =
      ['.', d1, d2] := by
    simp [isDigit_ne hd1 hcm, isDigit_ne hd2 hcm]
  have hclean : strSubst ',' '.' (strRemove '%' (renderPct z)) = ⟨pre ++ ds ++ ['.', d1, d2]⟩ := by
    show (⟨((renderPct z).data.filter (fun x => x ≠ '%')).map
      (fun x => if x = ',' then '.' else x)⟩ : String) = _
    rw [hrm, List.map_append, List.map_append, e4, e5, e6]
  -- step 3: the digit values
  have hv2 : digitsVal [d1, d2] = z.natAbs % 100 := by
    simp only [digitsVal, List.foldl, hd1def, hd2def]
    rw [Nat.mul_zero, Nat.zero_add, digitChar_toNat h1, digitChar_toNat h2]
    omega
  have hvds : digitsVal ds = z.natAbs / 100 := digitsVal_natToDigits _
  have hval : (digitsVal ds : ℚ) + (digitsVal [d1, d2] : ℚ) /
      (((10 : ℕ) ^ ([d1, d2] : List Char).length : ℕ) : ℚ) = (z.natAbs : ℚ) / 100 := by
    rw [hv2, hvds]
    have hdm : 100 * (z.natAbs / 100) + z.natAbs % 100 = z.natAbs := Nat.div_add_mod _ 100
    have hm2 : ((100 * (z.natAbs / 100) + z.natAbs % 100 : ℕ) : ℚ) = (z.natAbs : ℚ) := by
      exact_mod_cast congrArg (Nat.cast : ℕ → ℚ) hdm
    have hlen : (((10 : ℕ) ^ ([d1, d2] : List Char).length : ℕ) : ℚ) = 100 := by
      norm_num
    rw [hlen]
    calc ((z.natAbs / 100 : ℕ) : ℚ) + ((z.natAbs % 100 : ℕ) : ℚ) / 100
        = ((100 * (z.natAbs / 100) + z.natAbs % 100 : ℕ) : ℚ) / 100 := by push_cast; ring
      _ = (z.natAbs : ℚ) / 100 := by rw [hm2]
  -- step 4: assemble, by the sign of z
  show pyFloat (strSubst ',' '.' (strRemove '%' (renderPct z))) = _
  rw [hclean]
  by_cases hz : z < 0
  · have hzq : ((z.natAbs : ℕ) : ℚ) = -(z : ℚ) := by
      have h : (z.natAbs : ℤ) = -z := by omega
      calc ((z.natAbs : ℕ) : ℚ) = (((z.natAbs : ℕ) : ℤ) : ℚ) := (Int.cast_natCast _).symm
        _ = ((-z : ℤ) : ℚ) := by rw [h]
        _ = -(z : ℚ) := Int.cast_neg z
    rw [hpre, if_pos hz]
    show pyFloat ⟨'-' :: (ds ++ '.' :: [d1, d2])⟩ = _
    rw [pyFloat]
    simp only []
    rw [if_pos trivial, floatParts_split ds [d1, d2] hds hne (by
      intro c hc
      rcases List.mem_cons.mp hc with rfl | hc
      · exact hd1
      · rcases List.mem_singleton.mp (by simpa using hc) with rfl
        exact hd2)]
    simp only [Option.map_some']
    rw [hval, hzq]
    congr 1
    ring
  · have hzq : ((z.natAbs : ℕ) : ℚ) = (z : ℚ) := by
      have h : (z.natAbs : ℤ) = z := by omega
      calc ((z.natAbs : ℕ) : ℚ) = (((z.natAbs : ℕ) : ℤ) : ℚ) := (Int.cast_natCast _).symm
        _ = (z : ℚ) := by rw [h]
    rw [hpre, if_neg hz]
    show pyFloat ⟨ds ++ '.' :: [d1, d2]⟩ = _
    rw [pyFloat_decimal ds [d1, d2] hds hne (by
      intro c hc
      rcases List.mem_cons.mp hc with rfl | hc
      · exact hd1
      · rcases List.mem_singleton.mp (by simpa using hc) with rfl
        exact hd2)]
    rw [hval, hzq]

/-- C2 (confirmed): the two paths of the return builder agree — a
pre-scaled numeric cell `z / 100` and its percentage-string rendering
(with `%` stripped and the comma decimal normalised) both yield the
fraction `z / 100 / 100`; path 1 succeeds on every numeric column and is
used there, and path 2 is used exactly when path 1 raises its `TypeError`
(a textual column), never instead of a successful path 1.  In particular
numeric `5.0` and the string `"5,00%"` both yield `0.05`. -/
theorem c2_return_two_paths :
    (∀ z : Int,
      buildReturnCol (RetCol.numeric [some ((z : ℚ) / 100)]) =
        ([some ((z : ℚ) / 100 / 100)], PathTaken.primary)
    ∧ buildReturnCol (RetCol.textual [renderPct z]) =
        ([some ((z : ℚ) / 100 / 100)], PathTaken.fallback))
  ∧ (∀ col : RetCol,
      ((buildReturnCol col).2 = PathTaken.fallback ↔ path1 col = .error PyExc.typeError))
  ∧ (∀ vs : List (Option ℚ), path1 (RetCol.numeric vs) = .ok (vs.map divideBy100))
  ∧ (∀ vs : List (Option ℚ),
      buildReturnCol (RetCol.numeric vs) = (vs.map divideBy100, PathTaken.primary))
  ∧ buildReturnCol (RetCol.numeric [some 5]) = ([some (5 / 100)], PathTaken.primary)
  ∧ buildReturnCol (RetCol.textual ["5,00%"]) = ([some (5 / 100)], PathTaken.fallback) := by
  refine ⟨fun z => ⟨?_, ?_⟩, fun col => ?_, fun vs => rfl, fun vs => rfl, ?_, ?_⟩
  · simp [buildReturnCol, divideBy100]
  · simp [buildReturnCol, toNumericNorm_renderPct z, divideBy100]
  · cases col <;> simp [buildReturnCol, path1]
  · simp [buildReturnCol, divideBy100]
  · have h5 : toNumericNorm "5,00%" = some 5 := by
      norm_num +decide [toNumericNorm, strRemove, strSubst, pyFloat, splitDot,
        floatParts, digitsVal, charVal0, charVal5]
    simp [buildReturnCol, h5, divideBy100]

/-! ## C4 — the merger is an inner join on ticker -/

/-- With duplicate-free return tickers, filtering the return frame by one
key yields exactly the matching singleton (or nothing). -/
theorem filter_kod_map {r : List ReturnRow} (hr : (returnTickers r).Nodup) (k : String) :
    (r.filter (fun b => b.kod = k)).map (fun b => b.kod) =
      if k ∈ returnTickers r then [k] else [] := by
  induction r with
  | nil => simp [returnTickers]
  | cons a t ih =>
    have hcons := hr
    rw [returnTickers, List.map_cons, List.nodup_cons] at hcons
    obtain ⟨hna, hnt⟩ := hcons
    by_cases hk : a.kod = k
    · subst hk
      have hfil : t.filter (fun b => b.kod = a.kod) = [] := by
        rw [List.filter_eq_nil_iff]
        intro b hb hbk
        exact hna (by
          simp only [decide_eq_true_eq] at hbk
          exact hbk ▸ List.mem_map_of_mem (fun x => x.kod) hb)
      rw [if_pos (by rw [returnTickers, List.map_cons]; exact List.mem_cons_self _ _)]
      simp [List.filter_cons, hfil]
    · have hkmem : k ∈ returnTickers (a :: t) ↔ k ∈ returnTickers t := by
        rw [returnTickers, List.map_cons, List.mem_cons]
        exact or_iff_right (fun he => hk he.symm)
      by_cases hkt : k ∈ returnTickers t
      · rw [if_pos (hkmem.mpr hkt)]
        simp [List.filter_cons, hk, ih hnt, hkt]
      · rw [if_neg (fun h => hkt (hkmem.mp h))]
        simp [List.filter_cons, hk, ih hnt, hkt]

/-- The ticker column of the merged frame is the sector ticker column
restricted to tickers present on the return side. -/
theorem mergeDfs_tickers {s : List SectorRow} {r : List ReturnRow}
    (hr : (returnTickers r).Nodup) :
    (mergeDfs s r).map (fun m => m.kod) =
      (sectorTickers s).filter (fun k => k ∈ returnTickers r) := by
  induction s with
  | nil => rfl
  | cons a t ih =>
    have hsplit : mergeDfs (a :: t) r =
        ((r.filter (fun b => b.kod = a.kod)).map
          (fun b => (⟨a.kod, a.sektor, a.piyasa, b.getiri⟩ : MergedRow))) ++ mergeDfs t r := by
      simp [mergeDfs]
    have hinner : ((r.filter (fun b => b.kod = a.kod)).map
        (fun b => (⟨a.kod, a.sektor, a.piyasa, b.getiri⟩ : MergedRow))).map (fun m => m.kod) =
        (r.filter (fun b => b.kod = a.kod)).map (fun b => b.kod) := by
      rw [List.map_map]
      refine List.map_congr_left (fun b hb => ?_)
      have := (List.mem_filter.mp hb).2
      simp only [decide_eq_true_eq] at this
      simp [this]
    rw [hsplit, List.map_append, hinner, filter_kod_map hr a.kod, ih]
    by_cases hm : a.kod ∈ returnTickers r
    · simp [sectorTickers, List.filter_cons, hm]
    · simp [sectorTickers, List.filter_cons, hm]

/-- C4 (confirmed): with duplicate-free tickers on both sides, the merge
is an inner join on ticker — its ticker column is exactly the sector
tickers that also occur on the return side, its cardinality is the size
of the ticker-set intersection (hence at most `min` of the two input
sizes), and each ticker in the intersection occurs exactly once, every
other ticker not at all. -/
theorem c4_merge_inner_join (s : List SectorRow) (r : List ReturnRow)
    (hs : (sectorTickers s).Nodup) (hr : (returnTickers r).Nodup) :
    (mergeDfs s r).map (fun m => m.kod) =
      (sectorTickers s).filter (fun k => k ∈ returnTickers r)
  ∧ (mergeDfs s r).length =
      ((sectorTickers s).toFinset ∩ (returnTickers r).toFinset).card
  ∧ (mergeDfs s r).length ≤ min s.length r.length
  ∧ (∀ k : String, ((mergeDfs s r).map (fun m => m.kod)).count k =
      if k ∈ sectorTickers s ∧ k ∈ returnTickers r then 1 else 0) := by
  have ht := mergeDfs_tickers (s := s) hr
  have hlen : (mergeDfs s r).length =
      ((sectorTickers s).filter (fun k => k ∈ returnTickers r)).length := by
    rw [← ht, List.length_map]
  have hcard : (mergeDfs s r).length =
      ((sectorTickers s).toFinset ∩ (returnTickers r).toFinset).card := by
    rw [hlen]
    have hnf : ((sectorTickers s).filter (fun k => k ∈ returnTickers r)).Nodup :=
      hs.filter _
    rw [← List.toFinset_card_of_nodup hnf, List.toFinset_filter]
    congr 1
    ext k
    simp [List.mem_toFinset, Finset.mem_filter, Finset.mem_inter]
  refine ⟨ht, hcard, ?_, ?_⟩
  · refine le_min ?_ ?_
    · calc (mergeDfs s r).length
          ≤ (sectorTickers s).length := hlen ▸ List.length_filter_le _ _
        _ = s.length := by rw [sectorTickers, List.length_map]
    · calc (mergeDfs s r).length
          = ((sectorTickers s).toFinset ∩ (returnTickers r).toFinset).card := hcard
        _ ≤ (returnTickers r).toFinset.card :=
            Finset.card_le_card (Finset.inter_subset_right)
        _ = (returnTickers r).length := List.toFinset_card_of_nodup hr
        _ = r.length := by rw [returnTickers, List.length_map]
  · intro k
    rw [ht]
    by_cases hkr : k ∈ returnTickers r
    · rw [List.count_filter (by simpa using hkr), List.count_eq_of_nodup hs]
      by_cases hks : k ∈ sectorTickers s
      · rw [if_pos hks, if_pos ⟨hks, hkr⟩]
      · rw [if_neg hks, if_neg (fun h => hks h.1)]
    · have hnm : k ∉ (sectorTickers s).filter (fun x => x ∈ returnTickers r) := by
        intro hm
        exact hkr (by simpa using (List.mem_filter.mp hm).2)
      rw [List.count_eq_zero_of_not_mem hnm, if_neg (fun h => hkr h.2)]

/-- C4, witness: the merger example of the specification — sector tickers
A, B, C against return tickers B, C, D. -/
theorem c4_merge_inner_join_witness :
    ((sectorTickers exSectorRows).Nodup ∧ (returnTickers exReturnRows).Nodup)
  ∧ ((mergeDfs exSectorRows exReturnRows).map (fun m => m.kod) =
      (sectorTickers exSectorRows).filter (fun k => k ∈ returnTickers exReturnRows)
    ∧ (mergeDfs exSectorRows exReturnRows).length =
        ((sectorTickers exSectorRows).toFinset ∩ (returnTickers exReturnRows).toFinset).card
    ∧ (mergeDfs exSectorRows exReturnRows).length ≤
        min exSectorRows.length exReturnRows.length
    ∧ (∀ k : String, ((mergeDfs exSectorRows exReturnRows).map (fun m => m.kod)).count k =
        if k ∈ sectorTickers exSectorRows ∧ k ∈ returnTickers exReturnRows then 1 else 0)) :=
  ⟨⟨by decide, by decide⟩,
    c4_merge_inner_join exSectorRows exReturnRows (by decide) (by decide)⟩

/-! ## C5 — out-of-range and NaN returns -/

/-- A value below -10 or above 10 falls in none of the six bins. -/
theorem pdCutVal_out {q : ℚ} (hq : q < -10 ∨ 10 < q) :
    pdCutVal q colorRanges colorLabels = none := by
  simp only [colorRanges, colorLabels, pdCutVal]
  rcases hq with hq | hq <;>
    rw [if_neg (by rintro ⟨h1, h2⟩; linarith), if_neg (by rintro ⟨h1, h2⟩; linarith),
      if_neg (by rintro ⟨h1, h2⟩; linarith), if_neg (by rintro ⟨h1, h2⟩; linarith),
      if_neg (by rintro ⟨h1, h2⟩; linarith), if_neg (by rintro ⟨h1, h2⟩; linarith)]

/-- C5 (confirmed): a merged record whose return is below -10, above 10,
or NaN is classified without error into the NaN category (`none`), the
classification step never drops a record (it is a row-wise `map`), and
the figure's color map sends that category's key `"(?)"` to the neutral
placeholder `"#262931"`, a color distinct from all six bin colors. -/
theorem c5_out_of_range_unclassified (v : Option ℚ)
    (h : v = none ∨ ∃ q, v = some q ∧ (q < -10 ∨ 10 < q)) :
    classify v = none
  ∧ (∀ rows : List ParsedRow, (rows.map addRenk).length = rows.length)
  ∧ (∀ r : ParsedRow, r.getiri = v → (addRenk r).renk = none)
  ∧ color_map (renkKey (classify v)) = some "#262931"
  ∧ (∀ l : ColorLabel, color_map (renkKey (some l)) ≠ some "#262931") := by
  have hc : classify v = none := by
    rcases h with rfl | ⟨q, rfl, hq⟩
    · rfl
    · simpa [classify] using pdCutVal_out hq
  refine ⟨hc, fun rows => List.length_map _ _, fun r hr => by simp [addRenk, hr, hc], ?_, ?_⟩
  · rw [hc]
    rfl
  · intro l
    cases l <;> simp +decide [renkKey, color_map]

/-- C5, witness: the out-of-range return 15. -/
theorem c5_out_of_range_unclassified_witness :
    ((some (15 : ℚ) = none ∨ ∃ q, some (15 : ℚ) = some q ∧ (q < -10 ∨ 10 < q)))
  ∧ (classify (some (15 : ℚ)) = none
    ∧ (∀ rows : List ParsedRow, (rows.map addRenk).length = rows.length)
    ∧ (∀ r : ParsedRow, r.getiri = some (15 : ℚ) → (addRenk r).renk = none)
    ∧ color_map (renkKey (classify (some (15 : ℚ)))) = some "#262931"
    ∧ (∀ l : ColorLabel, color_map (renkKey (some l)) ≠ some "#262931")) :=
  ⟨Or.inr ⟨15, rfl, Or.inr (by norm_num)⟩,
    c5_out_of_range_unclassified (some 15) (Or.inr ⟨15, rfl, Or.inr (by norm_num)⟩)⟩

/-! ## C6 — out-of-range table position -/

/-- C6, counterexample: the pipeline surfaces no distinct error kind for a
layout failure.  A table list that is too short (so `tables[6]` raises
`IndexError`) and a failed fetch produce the *same* observable result,
the untagged `None` — the layout failure is not distinguishable from a
fetch failure in the pipeline's result, contradicting the claimed
distinct `LayoutError`. -/
theorem c6_counterexample :
    fetch_and_process_data true [emptyTable, emptyTable, emptyTable] = none
  ∧ fetch_and_process_data false demoTables = none
  ∧ fetch_and_process_data true [emptyTable, emptyTable, emptyTable] =
      fetch_and_process_data false demoTables :=
  ⟨rfl, rfl, rfl⟩

/-- C6 (amended): when position 2 or position 6 is out of range the
pipeline does fail fatally and builds no output — but the failure is the
single untagged result `None` shared by every error kind (the blanket
`except Exception` handler), not a distinct `LayoutError`. -/
theorem c6_layout_failure (tables : List Table) (h : tables.length ≤ 6) :
    fetch_and_process_data true tables = none := by
  have hb : pipelineBody tables = .error PyExc.indexError := by
    by_cases h2 : tables.length ≤ 2
    · rw [pipelineBody, List.get?_eq_none.mpr h2]
    · obtain ⟨t2, ht2⟩ : ∃ t2, tables.get? 2 = some t2 := by
        have hlt : 2 < tables.length := by omega
        exact ⟨tables.get ⟨2, hlt⟩, List.get?_eq_get hlt⟩
      rw [pipelineBody, ht2, List.get?_eq_none.mpr h]
  rw [fetch_and_process_data, if_pos rfl, hb]

/-- C6, witness: a one-table extraction. -/
theorem c6_layout_failure_witness :
    ([emptyTable] : List Table).length ≤ 6 ∧
      fetch_and_process_data true [emptyTable] = none :=
  ⟨by decide, c6_layout_failure [emptyTable] (by decide)⟩

/-! ## C7 — a market-cap parse failure aborts the whole run -/

/-- `astype('float64')` succeeds only if every cell of the market-cap
column parses. -/
theorem astypeMC_ok_all :
    ∀ {rows : List MergedRow} {l : List ParsedRow},
      astypeMC rows = .ok l → ∀ r ∈ rows, localeParse r.piyasa ≠ none
  | [], _, _, r, hr => absurd hr (List.not_mem_nil r)
  | a :: t, l, h, r, hr => by
    rw [astypeMC] at h
    cases hp : localeParse a.piyasa with
    | none =>
      rw [hp] at h
      exact absurd h (by simp)
    | some q =>
      rw [hp] at h
      cases ht : astypeMC t with
      | error e =>
        rw [ht] at h
        exact absurd h (by simp)
      | ok ps =>
        rcases List.mem_cons.mp hr with rfl | hr2
        · rw [hp]
          simp
        · exact astypeMC_ok_all ht r hr2

/-- The end-to-end scenario on well-formed input: `demoTables` runs
through every stage and produces the fully classified record set. -/
theorem demoTables_success :
    fetch_and_process_data true demoTables =
      some [⟨"AAA", "Tech", 1, some (1 / 100), some ColorLabel.lightgreen⟩,
            ⟨"BBB", "Fin", 2, some (1 / 50), some ColorLabel.lime⟩] := by
  norm_num +decide [fetch_and_process_data, pipelineBody, demoTables, emptyTable, sectorDfOf,
    returnDfOf, buildReturnCol, divideBy100, mergeDfs, astypeMC, localeParse, cleanMC,
    strRemove, strSubst, pyFloat, splitDot, floatParts, digitsVal, charVal1, charVal2,
    addRenk, classify, pdCutVal, colorRanges, colorLabels, List.filter]

/-- C7, counterexample: a seven-table input whose sector table has one
row with an unparsable market cap (`"abc"`) and one perfectly well-formed
row; the claim says only the bad row is dropped and the pipeline
continues, but the run returns the single failure result `None` — the
well-formed row is lost with it (compare `demoTables`, identical except
for the one cell, which succeeds end to end: `demoTables_success`). -/
theorem c7_counterexample : fetch_and_process_data true c7BadTables = none := rfl

/-- C7 (amended): a market-value parse failure for any single merged row
is not recovered locally: `astype('float64')` raises for the whole
column, the blanket handler catches it, and the entire run returns
`None` — no row survives. -/
theorem c7_no_row_recovery (tables : List Table) (t2 t6 : Table)
    (h2 : tables.get? 2 = some t2) (h6 : tables.get? 6 = some t6)
    (hbad : ∃ r ∈ mergeDfs (sectorDfOf t2) (returnDfOf t6), localeParse r.piyasa = none) :
    fetch_and_process_data true tables = none := by
  obtain ⟨r, hrm, hrp⟩ := hbad
  rw [fetch_and_process_data, if_pos rfl]
  cases hb : pipelineBody tables with
  | error e => rfl
  | ok df =>
    exfalso
    simp only [pipelineBody, h2, h6] at hb
    cases hast : astypeMC (mergeDfs (sectorDfOf t2) (returnDfOf t6)) with
    | error e =>
      rw [hast] at hb
      exact absurd hb (by simp)
    | ok l => exact astypeMC_ok_all hast r hrm hrp

/-- C7, witness: the bad seven-table input of `c7_counterexample`. -/
theorem c7_no_row_recovery_witness :
    (c7BadTables.get? 2 = some c7SectorTable
      ∧ c7BadTables.get? 6 = some c7ReturnTable
      ∧ ∃ r ∈ mergeDfs (sectorDfOf c7SectorTable) (returnDfOf c7ReturnTable),
          localeParse r.piyasa = none)
  ∧ fetch_and_process_data true c7BadTables = none :=
  ⟨⟨rfl, rfl, ⟨⟨"AAA", "Tech", "abc", divideBy100 (some 1)⟩,
      List.mem_cons_self _ _, rfl⟩⟩,
    c7_no_row_recovery c7BadTables c7SectorTable c7ReturnTable rfl rfl
      ⟨⟨"AAA", "Tech", "abc", divideBy100 (some 1)⟩, List.mem_cons_self _ _, rfl⟩⟩

/-! ## C8 — treemap hierarchy and sizing -/

/-- C8, counterexample: a record with market cap 0 and a record with
market cap -5 are passed into the chart specification with their raw
values — neither excluded nor floored — contradicting the claim's
"excluded or floored rather than included with its raw value". -/
theorem c8_counterexample :
    (create_treemap [zeroCapRow, negCapRow]).map chartLeaves =
      some [("AAA", (0 : ℚ)), ("BBB", (-5 : ℚ))] := rfl

/-- C8 (amended): `create_treemap` builds the three-level hierarchy
fixed root `"Borsa İstanbul"` → sector → ticker, carries every input
record exactly once (the spec's data is the input list itself, one leaf
per record), and sizes leaves by the raw `market_cap_musd` column —
zero or negative market caps are passed through unmodified, with no
exclusion or flooring. -/
theorem c8_hierarchy (df : List FinalRow) :
    ∃ c : ChartSpec, create_treemap df = some c
      ∧ c.pathConstant = "Borsa İstanbul"
      ∧ c.pathCols = ["Sektör", "Hisse"]
      ∧ c.pathCols.length + 1 = 3
      ∧ c.valuesCol = "Piyasa Değeri (mn $)"
      ∧ c.data = df
      ∧ chartLeaves c = df.map (fun r => (r.kod, r.piyasa)) :=
  ⟨_, rfl, rfl, rfl, rfl, rfl, rfl, rfl⟩

/-! ## C9 — hover and label templates -/

/-- C9 (confirmed): the hover template exposes exactly the four
placeholders label, value, customdata[0], customdata[1], which resolve
through the figure specification to the ticker column `"Hisse"`, the
market-cap column `"Piyasa Değeri (mn $)"`, the return column
`"Getiri (%)"` and the sector column `"Sektör"`; the leaf text template
shows exactly the ticker and the return, the latter rendered with a
trailing percent sign. -/
theorem c9_templates (df : List FinalRow) :
    ∃ c : ChartSpec, create_treemap df = some c
      ∧ (placeholders c.hoverTemplate.data).map (placeholderColumn c) =
          [some "Hisse", some "Piyasa Değeri (mn $)", some "Getiri (%)", some "Sektör"]
      ∧ (placeholders c.textTemplate.data).map (placeholderColumn c) =
          [some "Hisse", some "Getiri (%)"]
      ∧ c.textTemplate = "<b>%{label}</b><br>%{customdata[0]} %" :=
  ⟨_, rfl, rfl, rfl, rfl⟩

/-! ## C10 — an uncoercible return string flows through as NaN -/

/-- C10 (confirmed): a textual return cell that still fails numeric
coercion after the `%`-strip and comma normalisation raises no error:
`errors='coerce'` turns it into NaN, the row survives the merge with a
NaN return, and classification leaves it in the NaN (unclassified)
category — the record is present in the final frame. -/
theorem c10_uncoercible_return (s : String) (h : toNumericNorm s = none) :
    fetch_and_process_data true (c10Tables s) =
      some [⟨"AAA", "Tech", 1, none, none⟩] := by
  norm_num +decide [fetch_and_process_data, pipelineBody, c10Tables, emptyTable, sectorDfOf,
    returnDfOf, buildReturnCol, h, divideBy100, mergeDfs, astypeMC, localeParse, cleanMC,
    strRemove, strSubst, pyFloat, splitDot, floatParts, digitsVal, charVal1, addRenk,
    classify, List.filter]

/-- C10, witness: the return string `"N/A"` is not coercible. -/
theorem c10_uncoercible_return_witness :
    toNumericNorm "N/A" = none
  ∧ fetch_and_process_data true (c10Tables "N/A") =
      some [⟨"AAA", "Tech", 1, none, none⟩] :=
  ⟨by decide, c10_uncoercible_return "N/A" (by decide)⟩

end BistApp
